import Mathlib

/-!
Shallow embedding of `skills/scripts/validate_docs.py`, a markdown
documentation validator.  Strings are modelled as `String`/`List Char`,
the filesystem as an association list from absolute paths (component
lists) to file contents, and `datetime.now()` as an integer number of
seconds since the Unix epoch.  Each `re` pattern of the source is
embedded as an explicit character scanner with the same matching
semantics (leftmost search, greedy classes, fixed alternation order).
Python exceptions (from `strptime` on an invalid calendar date and from
`Path.relative_to` on a path outside the project root) are modelled with
`Except String`.
-/

namespace ValidateDocs

/-- The backtick character (code 96), written via `Char.ofNat`. -/
def btChar : Char := Char.ofNat 96

/-- Predicate used by the code-reference scanners: not a backtick. -/
def notBt (c : Char) : Bool := c != btChar

/-- Python `\s` over the ASCII range: space, tab, newline, CR, VT, FF. -/
def isWS (c : Char) : Bool :=
  c == ' ' || c == '\t' || c == '\n' || c == '\r' || c == Char.ofNat 11 || c == Char.ofNat 12

/-- Substring test on character lists (Python `in` on `str`). -/
def containsSub (pat : List Char) : List Char → Bool
  | [] => pat.isEmpty
  | c :: cs => pat.isPrefixOf (c :: cs) || containsSub pat cs

/-- ASCII lower-casing of a string (Python `str.lower`). -/
def strLower (s : String) : String := ⟨s.data.map Char.toLower⟩

/-- Python `s.startswith(t)`. -/
def strStarts (s t : String) : Bool := t.data.isPrefixOf s.data

def splitChAux (c : Char) (cur : List Char) : List Char → List String
  | [] => [cur.reverse.asString]
  | x :: xs =>
    if x = c then cur.reverse.asString :: splitChAux c [] xs
    else splitChAux c (x :: cur) xs

/-- Split on `/` keeping empty segments (Python `str.split("/")`). -/
def splitSlash (s : String) : List String := splitChAux '/' [] s.data

/-- Join path components with `/`. -/
def joinSlash : List String → String
  | [] => ""
  | [x] => x
  | x :: y :: xs => x ++ "/" ++ joinSlash (y :: xs)

/-- Python `pat in s` for strings. -/
def strContains (s pat : String) : Bool := containsSub pat.data s.data

/-! ### Generic findall-style scanner

`scanAux m fuel cs` mirrors `re.findall`: it tries the matcher `m` at
every position of `cs`; on a match it records the captured value and
continues after the consumed text, otherwise it advances one character.
Every matcher consumes at least one character on success, so a fuel of
`cs.length` always suffices. -/

def scanAux {α : Type} (m : List Char → Option (α × List Char)) : Nat → List Char → List α
  | 0, _ => []
  | _ + 1, [] => []
  | fuel + 1, c :: cs =>
    match m (c :: cs) with
    | some (a, rest) => a :: scanAux m fuel rest
    | none => scanAux m fuel cs

def scanStr {α : Type} (m : List Char → Option (α × List Char)) (s : String) : List α :=
  scanAux m s.data.length s.data

/-! ### Markdown links: `\[([^\]]+)\]\(([^)]+)\)` -/

/-- Characters strictly before the first occurrence of `c`, and the rest
after it; `none` when `c` does not occur. -/
def takeUntilCh (c : Char) : List Char → Option (List Char × List Char)
  | [] => none
  | x :: xs =>
    if x = c then some ([], xs)
    else
      match takeUntilCh c xs with
      | some (a, b) => some (x :: a, b)
      | none => none

def matchLinkAt : List Char → Option ((String × String) × List Char)
  | [] => none
  | c :: rest =>
    if c = '[' then
      match takeUntilCh ']' rest with
      | some (text, rest1) =>
        if text = [] then none
        else
          match rest1 with
          | c2 :: rest2 =>
            if c2 = '(' then
              match takeUntilCh ')' rest2 with
              | some (url, rest3) =>
                if url = [] then none else some ((text.asString, url.asString), rest3)
              | none => none
            else none
          | [] => none
      | none => none
    else none

def findLinks (s : String) : List (String × String) := scanStr matchLinkAt s

/-! ### Code file references (three inline-code-span patterns) -/

def fullExts : List String := ["ts", "tsx", "js", "jsx", "py", "sql", "md"]
def srcExts : List String := ["ts", "tsx", "js", "jsx"]

/-- Split at the last occurrence of `c`: `some (before, after)`. -/
def splitLast (c : Char) : List Char → Option (List Char × List Char)
  | [] => none
  | x :: xs =>
    match splitLast c xs with
    | some (a, b) => some (x :: a, b)
    | none => if x = c then some ([], xs) else none

/-- Does `ref` match `[^`]+\.(ts|tsx|js|jsx|py|sql|md)` in full?  The
greedy class forces the extension to sit after the last dot. -/
def refOk (ref : List Char) : Bool :=
  match splitLast '.' ref with
  | some (stem, ext) => (!stem.isEmpty) && fullExts.contains ext.asString
  | none => false

/-- Full-span match of the line-numbered shape inside one code span:
the span must read `ref.ext:digits` with a recognised extension.  The
result is capture group 1 (the reference without the line number). -/
def p1Split (run : List Char) : Option (List Char) :=
  match splitLast ':' run with
  | some (ref, ds) =>
    if (!ds.isEmpty) && ds.all Char.isDigit && refOk ref then some ref else none
  | none => none

def matchRef1 : List Char → Option (String × List Char)
  | [] => none
  | c :: rest =>
    if c = btChar then
      match rest.dropWhile notBt with
      | _ :: after =>
        match p1Split (rest.takeWhile notBt) with
        | some ref => some (ref.asString, after)
        | none => none
      | [] => none
    else none

/-- Matcher for the `src/`- and `app/`-rooted shapes
(`` `(src/[^`]+\.(ts|tsx|js|jsx))` ``): the whole span must start with
the given 4-character root and end in a dot plus a recognised source
extension. -/
def matchRefPre (pre : List Char) : List Char → Option (String × List Char)
  | [] => none
  | c :: rest =>
    if c = btChar then
      match rest.dropWhile notBt with
      | _ :: after =>
        let run := rest.takeWhile notBt
        if pre.isPrefixOf run then
          match splitLast '.' (run.drop pre.length) with
          | some (mid, ext) =>
            if (!mid.isEmpty) && srcExts.contains ext.asString then
              some (run.asString, after)
            else none
          | none => none
        else none
      | [] => none
    else none

/-! ### TODO markers: `(TODO|FIXME|XXX|HACK):\s*(.+)` -/

def todoMarkers : List String := ["TODO", "FIXME", "XXX", "HACK"]

def matchMarker (cs : List Char) : Option (String × List Char) :=
  match todoMarkers.find? (fun mk => mk.data.isPrefixOf cs) with
  | some mk => some (mk, cs.drop mk.length)
  | none => none

/-- Backtracking of `\s*(.+)`: try the longest whitespace skip first;
`.` does not match a newline, so the description starts at the first
offset (from `k` downwards) whose character is not a newline. -/
def descFrom (r : List Char) : Nat → Option (List Char × List Char)
  | 0 =>
    match r with
    | c :: _ =>
      if c = '\n' then none
      else some (r.takeWhile (fun x => x != '\n'), r.dropWhile (fun x => x != '\n'))
    | [] => none
  | k + 1 =>
    match r.drop (k + 1) with
    | c :: _ =>
      if c = '\n' then descFrom r k
      else
        some ((r.drop (k + 1)).takeWhile (fun x => x != '\n'),
          (r.drop (k + 1)).dropWhile (fun x => x != '\n'))
    | [] => descFrom r k

def matchTodoAt (cs : List Char) : Option ((String × String) × List Char) :=
  match matchMarker cs with
  | some (mk, r1) =>
    match r1 with
    | c :: r2 =>
      if c = ':' then
        match descFrom r2 (r2.takeWhile isWS).length with
        | some (desc, rest) => some ((mk, desc.asString), rest)
        | none => none
      else none
    | [] => none
  | none => none

def checkTodoMarkers (content : String) : List String :=
  (scanStr matchTodoAt content).map (fun md =>
    "Found " ++ md.1 ++ ": " ++ (md.2.data.take 50).asString ++ "...")

/-! ### Last-updated timestamp -/

/-- `\d{4}-\d{2}-\d{2}` at the current position; returns the capture. -/
def matchDateAt : List Char → Option String
  | a :: b :: c :: d :: e :: f :: g :: h :: i :: j :: _ =>
    if e == '-' && h == '-' && a.isDigit && b.isDigit && c.isDigit && d.isDigit
        && f.isDigit && g.isDigit && i.isDigit && j.isDigit then
      some ⟨[a, b, c, d, e, f, g, h, i, j]⟩
    else none
  | _ => none

/-- Match one timestamp pattern (literal text, then `\s*`, then the
date) at the current position. -/
def matchTSAt (lit : List Char) (cs : List Char) : Option String :=
  if lit.isPrefixOf cs then matchDateAt ((cs.drop lit.length).dropWhile isWS)
  else none

/-- `re.search` for one timestamp pattern: first matching position. -/
def searchTS (lit : List Char) : List Char → Option String
  | [] => none
  | c :: cs =>
    match matchTSAt lit (c :: cs) with
    | some s => some s
    | none => searchTS lit cs

def boldLit : List Char := "**Last Updated**:".data
def plainLit : List Char := "Last Updated:".data
def updLit : List Char := "Updated:".data

/-- The three accepted forms, in the source's fixed priority order; the
first pattern with a match anywhere in the document wins. -/
def findTimestamp (content : String) : Option String :=
  match searchTS boldLit content.data with
  | some s => some s
  | none =>
    match searchTS plainLit content.data with
    | some s => some s
    | none => searchTS updLit content.data

/-! ### Dates (`datetime.strptime` / day arithmetic) -/

def isLeap (y : Nat) : Bool := y % 4 == 0 && (y % 100 != 0 || y % 400 == 0)

def daysInMonth (y m : Nat) : Nat :=
  if m = 2 then (if isLeap y then 29 else 28)
  else if m = 4 || m = 6 || m = 9 || m = 11 then 30
  else 31

/-- `strptime` validity for `%Y-%m-%d` (year 1..9999 is implied by the
four-digit capture). -/
def validDate (y m d : Nat) : Bool :=
  1 ≤ y && 1 ≤ m && m ≤ 12 && 1 ≤ d && d ≤ daysInMonth y m

def digitVal (c : Char) : Nat := c.toNat - 48

/-- `datetime.strptime(s, "%Y-%m-%d")`: `none` models a raised
`ValueError` (digits that form no valid calendar date). -/
def parseDate (s : String) : Option (Nat × Nat × Nat) :=
  match s.data with
  | [y1, y2, y3, y4, s1, m1, m2, s2, d1, d2] =>
    if s1 == '-' && s2 == '-' && ([y1, y2, y3, y4, m1, m2, d1, d2].all Char.isDigit) then
      let y := 1000 * digitVal y1 + 100 * digitVal y2 + 10 * digitVal y3 + digitVal y4
      let m := 10 * digitVal m1 + digitVal m2
      let d := 10 * digitVal d1 + digitVal d2
      if validDate y m d then some (y, m, d) else none
    else none
  | _ => none

/-- Days from 0000-03-01-based eras (Gregorian civil calendar). -/
def rataDie (y m d : Nat) : Nat :=
  let yi : Nat := if m ≤ 2 then y - 1 else y
  let era : Nat := yi / 400
  let yoe : Nat := yi - era * 400
  let mp : Nat := if 2 < m then m - 3 else m + 9
  let doy : Nat := (153 * mp + 2) / 5 + d - 1
  let doe : Nat := yoe * 365 + yoe / 4 - yoe / 100 + doy
  era * 146097 + doe

/-- Day number of a civil date relative to 1970-01-01. -/
def epochDay (y m d : Nat) : Int := (rataDie y m d : Int) - 719468

/-- `(datetime.now() - last_updated).days`: `timedelta.days` floors
toward minus infinity, hence `Int.fdiv`. -/
def daysOld (now : Int) (y m d : Nat) : Int :=
  Int.fdiv (now - 86400 * epochDay y m d) 86400

def pad2 (n : Nat) : String := if n < 10 then "0" ++ toString n else toString n

def pad4 (n : Nat) : String :=
  if n < 10 then "000" ++ toString n
  else if n < 100 then "00" ++ toString n
  else if n < 1000 then "0" ++ toString n
  else toString n

/-- `last_updated.strftime("%Y-%m-%d")`. -/
def dateStrOf (y m d : Nat) : String := pad4 y ++ "-" ++ pad2 m ++ "-" ++ pad2 d

def noTsMsg : String := "No 'Last Updated' timestamp found"

def staleMsg (days : Int) (y m d : Nat) : String :=
  "Document hasn't been updated in " ++ toString days ++ " days (since "
    ++ dateStrOf y m d ++ ")"

/-- `DocValidator._check_last_updated`.  A recognised declaration whose
digits form no valid calendar date makes `strptime` raise, modelled as
`.error`. -/
def checkLastUpdated (name content : String) (now : Int) : Except String (List String) :=
  match findTimestamp content with
  | some s =>
    match parseDate s with
    | some (y, m, d) =>
      if 180 < daysOld now y m d then .ok [staleMsg (daysOld now y m d) y m d]
      else .ok []
    | none =>
      .error ("ValueError: time data '" ++ s ++ "' does not match format '%Y-%m-%d'")
  | none =>
    if strContains (strLower name) "template" then .ok [] else .ok [noTsMsg]

/-! ### Required sections -/

/-- Case-insensitive "starts with" over character lists (the effect of
`re.IGNORECASE` on the literal section name). -/
def ciStarts : List Char → List Char → Bool
  | [], _ => true
  | _ :: _, [] => false
  | p :: ps, c :: cs => (p.toLower == c.toLower) && ciStarts ps cs

/-- `^#+\s+section` matched at the current position (which must be a
line start): one or more hashes, one or more whitespace characters
(`\s` may cross a newline), then the section name case-insensitively. -/
def headingAt (sec : List Char) (cs : List Char) : Bool :=
  let hs := cs.takeWhile (fun c => c == '#')
  if hs.isEmpty then false
  else
    let r1 := cs.drop hs.length
    let ws := r1.takeWhile isWS
    if ws.isEmpty then false else ciStarts sec (r1.drop ws.length)

/-- `re.search` with `re.MULTILINE`: try every line start. -/
def searchHeading (sec : List Char) : Bool → List Char → Bool
  | _, [] => false
  | atStart, c :: cs =>
    (atStart && headingAt sec (c :: cs)) || searchHeading sec (c == '\n') cs

def sectionFound (sec content : String) : Bool := searchHeading sec.data true content.data

/-- `DocValidator._check_required_sections`: classification is by the
document's *filename* only, first match wins; templates are exempt. -/
def checkRequiredSections (name content : String) : List String :=
  if strContains (strLower name) "template" then []
  else
    let req : List String :=
      if strContains (strLower name) "runbook" || strContains name "RUNBOOK" then
        ["Overview", "Common Issues", "Monitoring"]
      else if strContains (strLower name) "adr" || strStarts name "ADR" then
        ["Context", "Decision", "Consequences"]
      else if strContains (strLower name) "api" || strContains name "API" then
        ["Overview", "Endpoints", "Error Handling"]
      else []
    (req.filter (fun sec => !sectionFound sec content)).map
      (fun sec => "Missing required section: " ++ sec)

/-! ### Paths and the filesystem model -/

/-- An absolute path, as the list of components below the filesystem
root. -/
abbrev PathC := List String

/-- Lexical collapse of `..` (the effect of `Path.resolve` and of the
OS resolving a probe), as used by the existence check. -/
def canonParts (p : PathC) : PathC :=
  p.foldl (fun acc c => if c = ".." then acc.dropLast else acc ++ [c]) []

/-- The filesystem: existing regular files with their contents. -/
structure FS where
  files : List (PathC × String)

def fsExists (fs : FS) (p : PathC) : Bool :=
  fs.files.any (fun f => f.1 == canonParts p)

def fsRead (fs : FS) (p : PathC) : Option String :=
  (fs.files.find? (fun f => f.1 == canonParts p)).map (fun f => f.2)

def pathStr (p : PathC) : String := "/" ++ joinSlash p

def relStr (p : PathC) : String := joinSlash p

def fileName (p : PathC) : String := p.getLastD ""

/-! ### Broken links -/

def urlIsExternal (u : String) : Bool :=
  strStarts u "http://" || strStarts u "https://" || strStarts u "mailto:"
    || strStarts u "#"

/-- `pathlib` path construction from a string: split on `/`, dropping
empty components and `.` (but keeping `..`). -/
def partsOfStr (u : String) : List String :=
  (splitSlash u).filter (fun c => c != "" && c != ".")

/-- `(doc_path.parent / link_url).resolve()`: fold the raw components,
collapsing `.`, empty components and `..`. -/
def resolveRel (base : PathC) (parts : List String) : PathC :=
  parts.foldl (fun acc c =>
    if c = "" || c = "." then acc
    else if c = ".." then acc.dropLast
    else acc ++ [c]) base

def stripSlash (u : String) : String := (u.data.dropWhile (fun c => c == '/')).asString

/-- Target path of a link: root-relative for a leading `/`, otherwise
resolved against the document's directory. -/
def linkTarget (root docPath : PathC) (u : String) : PathC :=
  if strStarts u "/" then root ++ partsOfStr (stripSlash u)
  else resolveRel docPath.dropLast (splitSlash u)

/-- `Path.relative_to`: raises `ValueError` when `root` is not a prefix
of `p`. -/
def relTo (p root : PathC) : Except String PathC :=
  if root.isPrefixOf p then .ok (p.drop root.length)
  else
    .error ("ValueError: '" ++ pathStr p ++ "' is not in the subpath of '"
      ++ pathStr root ++ "'")

def brokenLinkMsg (t u : String) (rel : PathC) : String :=
  "Broken link: [" ++ t ++ "](" ++ u ++ ") -> " ++ relStr rel ++ " not found"

/-- `DocValidator._check_broken_links`. -/
def checkBrokenLinks (fs : FS) (root docPath : PathC) (content : String) :
    Except String (List String) :=
  (findLinks content).foldlM (fun acc tu =>
    if urlIsExternal tu.2 then pure acc
    else
      let target := linkTarget root docPath tu.2
      if fsExists fs target then pure acc
      else do
        let rel ← relTo target root
        pure (acc ++ [brokenLinkMsg tu.1 tu.2 rel])) []

/-! ### Code file references -/

def placeholders : List String := ["example", "your-", "xxx", "..."]

def isPlaceholder (ref : String) : Bool :=
  placeholders.any (fun p => strContains (strLower ref) p)

def normSlash (ref : String) : String :=
  (ref.data.map (fun c => if c = '\\' then '/' else c)).asString

/-- `DocValidator._check_code_file_references`: the three patterns are
scanned over the whole content in order, and each surviving reference
is probed relative to the project root. -/
def checkCodeFileReferences (fs : FS) (root : PathC) (content : String) : List String :=
  let refs := scanStr matchRef1 content ++ scanStr (matchRefPre "src/".data) content
      ++ scanStr (matchRefPre "app/".data) content
  refs.filterMap (fun r0 =>
    let r := normSlash r0
    if isPlaceholder r then none
    else if fsExists fs (root ++ partsOfStr r) then none
    else some ("Referenced file may not exist: " ++ r))

/-! ### validate_file and main -/

/-- The validator's mutable state (`self.errors`, `self.warnings`,
`self.fixes_applied`). -/
structure VState where
  errors : List String
  warnings : List String
  fixes : List String

def missingMsg (p : PathC) : String := "File does not exist: " ++ pathStr p

/-- `DocValidator.validate_file`, threading the validator instance's
state.  The three lists are reset on entry, so `prior` is discarded;
the returned triple is `(success, errors, warnings)`.  A missing file
short-circuits with a single synthetic error.  Checks run in source
order: links, code references, timestamp, sections, TODO markers;
errors come from links then sections, warnings from code references,
timestamp, then TODO markers. -/
def validateFileS (fs : FS) (root : PathC) (now : Int) (prior : VState) (docPath : PathC) :
    Except String (VState × Bool × List String × List String) :=
  match fsRead fs docPath with
  | none =>
    let es := [missingMsg docPath]
    .ok (⟨es, [], []⟩, false, es, [])
  | some content =>
    match checkBrokenLinks fs root docPath content with
    | .error e => .error e
    | .ok linkErrs =>
      let codeWarns := checkCodeFileReferences fs root content
      match checkLastUpdated (fileName docPath) content now with
      | .error e => .error e
      | .ok tsWarns =>
        let secErrs := checkRequiredSections (fileName docPath) content
        let todoWarns := checkTodoMarkers content
        let errors := linkErrs ++ secErrs
        let warnings := codeWarns ++ tsWarns ++ todoWarns
        .ok (⟨errors, warnings, []⟩, errors.isEmpty, errors, warnings)

/-- The validation loop of `main`: one validator instance threaded over
all documents, collecting each `(success, errors, warnings)`. -/
def runMainAux (fs : FS) (root : PathC) (now : Int) :
    VState → List PathC → Except String (List (Bool × List String × List String))
  | _, [] => .ok []
  | st, p :: rest =>
    match validateFileS fs root now st p with
    | .error e => .error e
    | .ok r =>
      match runMainAux fs root now r.1 rest with
      | .error e => .error e
      | .ok others => .ok (r.2 :: others)

/-- `main`'s aggregation and exit status: exit 1 iff some document
failed, else 0 (an uncaught exception is the `.error` case). -/
def runMain (fs : FS) (root : PathC) (now : Int) (docs : List PathC) :
    Except String (Nat × List (Bool × List String × List String)) :=
  match runMainAux fs root now ⟨[], [], []⟩ docs with
  | .error e => .error e
  | .ok results => .ok (if results.any (fun r => !r.1) then 1 else 0, results)

/-! ## Scenario constants -/

/-- Project root of the C1 end-to-end scenario. -/
def c1Root : PathC := ["home", "proj"]

/-- `docs/api/users.md` under the project root. -/
def c1Doc : PathC := ["home", "proj", "docs", "api", "users.md"]

/-- Headings `Overview` and `Endpoints`, no `Error Handling` heading, a
dead link `[spec](./missing.md)`, and no last-updated line. -/
def c1Content : String :=
  "# Users\n\n## Overview\n\nIntro text.\n\n## Endpoints\n\nSee [spec](./missing.md) for details.\n"

def c1FS : FS := ⟨[(c1Doc, c1Content)]⟩

def c1Now : Int := 1750000000

def c1BrokenMsg : String :=
  "Broken link: [spec](./missing.md) -> docs/api/missing.md not found"

/-! ## Claims -/

/-- Claim C1, counterexample.  The spec's end-to-end scenario expects 2
errors (missing `Error Handling` section plus broken link) for
`docs/api/users.md`, but classification looks only at the filename
`users.md`, which contains neither "api" nor "API", so no sections are
required: the run produces exactly one error (the broken link), not
two. -/
theorem c1_counterexample :
    validateFileS c1FS c1Root c1Now ⟨[], [], []⟩ c1Doc
      = .ok (⟨[c1BrokenMsg], [noTsMsg], []⟩, false, [c1BrokenMsg], [noTsMsg]) ∧
    [c1BrokenMsg].length ≠ 2 := by
  exact ⟨rfl, by decide⟩

/-- Claim C1, amended.  Validating `docs/api/users.md` with headings
`Overview` and `Endpoints`, a dead link `[spec](./missing.md)` and no
last-updated line produces exactly 1 error (the broken link; the
required-section check does not apply because the filename `users.md`
matches no profile) and exactly 1 warning (no timestamp); the document
fails and the run exits with status 1. -/
theorem c1_amended :
    runMain c1FS c1Root c1Now [c1Doc]
      = .ok (1, [(false, [c1BrokenMsg], [noTsMsg])]) := rfl

/-- Claim C2 (code bug).  The checkers can raise: a declaration
`Last Updated: 2024-13-99` matches the timestamp regex but makes
`strptime` raise `ValueError`, and a broken relative link whose
resolved path escapes the project root makes `Path.relative_to` raise
while the error message is formatted; either exception propagates out
of `validate_file` and aborts the whole run. -/
theorem c2_code_bug :
    checkLastUpdated "doc.md" "Last Updated: 2024-13-99" 1750000000
      = .error "ValueError: time data '2024-13-99' does not match format '%Y-%m-%d'" ∧
    checkBrokenLinks ⟨[]⟩ ["r"] ["r", "d.md"] "[x](../../out.md)"
      = .error "ValueError: '/out.md' is not in the subpath of '/r'" ∧
    validateFileS ⟨[(["r", "d.md"], "[x](../../out.md)")]⟩ ["r"] 0 ⟨[], [], []⟩ ["r", "d.md"]
      = .error "ValueError: '/out.md' is not in the subpath of '/r'" :=
  ⟨rfl, rfl, rfl⟩

/-- Claim C6.  A file named `RUNBOOK-db.md` whose content has markdown
headings only for `Overview` and `Monitoring` gets exactly one error
from the section check: missing `Common Issues`. -/
theorem c6_runbook_sections :
    checkRequiredSections "RUNBOOK-db.md"
        "## Overview\n\nAlerts and dashboards.\n\n## Monitoring\n\nGrafana.\n"
      = ["Missing required section: Common Issues"] := rfl

/-- Claim C7.  `validate_file` resets the validator's error, warning
and fix lists on entry, so its outcome is independent of the state left
by any previously validated document: validating the same unchanged
document (same filesystem, same current time) yields identical results
every time. -/
theorem c7_idempotent (fs : FS) (root : PathC) (now : Int) (st st' : VState) (p : PathC) :
    validateFileS fs root now st p = validateFileS fs root now st' p := rfl

def c3Warn : String := "Document hasn't been updated in 181 days (since 2024-12-31)"

/-- Claim C3.  For any current time `now`, a document whose recognised
declaration is dated exactly 181 days before `now` gets the staleness
warning naming the day count and the original date, while a document
dated exactly 180 days before `now` (one day later, 2025-01-01) gets no
warning at all. -/
theorem c3_staleness (now : Int) (h : daysOld now 2024 12 31 = 181) :
    checkLastUpdated "guide.md" "**Last Updated**: 2024-12-31" now = .ok [c3Warn] ∧
    checkLastUpdated "guide.md" "**Last Updated**: 2025-01-01" now = .ok [] := by
  have h2 : daysOld now 2025 1 1 = 180 := by
    have e1 : epochDay 2025 1 1 = epochDay 2024 12 31 + 1 := by decide
    unfold daysOld at h ⊢
    rw [Int.fdiv_eq_ediv _ (by norm_num)] at h ⊢
    rw [e1, show now - 86400 * (epochDay 2024 12 31 + 1)
        = (now - 86400 * epochDay 2024 12 31) + (-1) * 86400 from by ring,
      Int.add_mul_ediv_right _ _ (by norm_num : (86400 : Int) ≠ 0), h]
    norm_num
  constructor
  · rw [show checkLastUpdated "guide.md" "**Last Updated**: 2024-12-31" now
        = (if 180 < daysOld now 2024 12 31
            then .ok [staleMsg (daysOld now 2024 12 31) 2024 12 31] else .ok []) from rfl,
      h, if_pos (by norm_num : (180 : Int) < 181)]
    rfl
  · rw [show checkLastUpdated "guide.md" "**Last Updated**: 2025-01-01" now
        = (if 180 < daysOld now 2025 1 1
            then .ok [staleMsg (daysOld now 2025 1 1) 2025 1 1] else .ok []) from rfl,
      h2, if_neg (by norm_num : ¬ (180 : Int) < 180)]

/-- Witness for C3 at the concrete time 2025-06-30 12:00:00 UTC, which
is exactly 181 days after 2024-12-31 and 180 days after 2025-01-01. -/
theorem c3_staleness_witness :
    checkLastUpdated "guide.md" "**Last Updated**: 2024-12-31"
        (86400 * epochDay 2025 6 30 + 43200) = .ok [c3Warn] ∧
    checkLastUpdated "guide.md" "**Last Updated**: 2025-01-01"
        (86400 * epochDay 2025 6 30 + 43200) = .ok [] :=
  c3_staleness (86400 * epochDay 2025 6 30 + 43200) (by decide)

/-- Claim C8.  The timestamp check selects by the fixed priority
bold > plain > `Updated:`, where each form needs a `YYYY-MM-DD` date:
whichever form is highest-priority among those matching anywhere in the
document wins, regardless of textual position — in the final conjunct
the `Updated:` form occurs first in the text but the bold form's date
is returned. -/
theorem c8_timestamp_priority (content : String) :
    (∀ s, searchTS boldLit content.data = some s → findTimestamp content = some s) ∧
    (searchTS boldLit content.data = none →
      ∀ s, searchTS plainLit content.data = some s → findTimestamp content = some s) ∧
    (searchTS boldLit content.data = none → searchTS plainLit content.data = none →
      findTimestamp content = searchTS updLit content.data) ∧
    findTimestamp "Updated: 2020-01-01 then **Last Updated**: 2021-02-03"
      = some "2021-02-03" := by
  refine ⟨?_, ?_, ?_, rfl⟩
  · intro s hs; unfold findTimestamp; rw [hs]
  · intro hb s hs; unfold findTimestamp; rw [hb, hs]
  · intro hb hp; unfold findTimestamp; rw [hb, hp]

/-- Witness for C8 on a document where only the `Updated:` form
occurs. -/
theorem c8_timestamp_priority_witness :
    findTimestamp "see Updated: 2020-01-01 here" = some "2020-01-01" :=
  ((c8_timestamp_priority "see Updated: 2020-01-01 here").2.2.1 rfl rfl).trans rfl

/-- The staleness warning never coincides with the missing-timestamp
warning (their texts start with different characters). -/
theorem staleMsg_ne_noTs (days : Int) (y m d : Nat) : staleMsg days y m d ≠ noTsMsg := by
  intro h
  have hd := congrArg String.data h
  rw [show staleMsg days y m d
      = "Document hasn't been updated in "
        ++ (toString days ++ (" days (since " ++ (dateStrOf y m d ++ ")"))) from by
    simp [staleMsg, String.append_assoc]] at hd
  rw [String.data_append] at hd
  simp [noTsMsg] at hd

/-- Claim C9.  On any non-raising run, the timestamp check emits at
most one finding; a document with a recognised timestamp never gets the
missing-timestamp warning; a document without one gets nothing but the
missing-timestamp warning (hence no staleness warning); and a
template-named document without a timestamp gets neither. -/
theorem c9_timestamp_exclusive (name content : String) (now : Int) (l : List String)
    (h : checkLastUpdated name content now = .ok l) :
    l.length ≤ 1 ∧
    ((∃ s, findTimestamp content = some s) → noTsMsg ∉ l) ∧
    (findTimestamp content = none → ∀ msg ∈ l, msg = noTsMsg) ∧
    (findTimestamp content = none → strContains (strLower name) "template" = true →
      l = []) := by
  unfold checkLastUpdated at h
  split at h
  next s hf =>
    split at h
    next y m d hp =>
      split at h
      · injection h with h
        subst h
        refine ⟨by simp, ?_, ?_, ?_⟩
        · intro _ hmem
          have hmm := List.mem_singleton.mp hmem
          exact staleMsg_ne_noTs (daysOld now y m d) y m d hmm.symm
        · intro h0; rw [h0] at hf; exact Option.noConfusion hf
        · intro h0 _; rw [h0] at hf; exact Option.noConfusion hf
      · injection h with h
        subst h
        exact ⟨by simp, by simp, by simp, fun _ _ => rfl⟩
    next hp => exact Except.noConfusion h
  next hf =>
    split at h
    next htpl =>
      injection h with h
      subst h
      exact ⟨by simp, fun _ => by simp, fun _ msg hm => absurd hm (List.not_mem_nil msg),
        fun _ _ => rfl⟩
    next htpl =>
      injection h with h
      subst h
      refine ⟨by simp, ?_, ?_, ?_⟩
      · rintro ⟨s, hs⟩; rw [hf] at hs; exact Option.noConfusion hs
      · intro _ msg hm; simpa using hm
      · intro _ htpl2; exact absurd htpl2 htpl

/-- Witness for C9 on a document with no timestamp declaration. -/
theorem c9_timestamp_exclusive_witness :
    ([noTsMsg] : List String).length ≤ 1 :=
  (c9_timestamp_exclusive "a.md" "hello" 0 [noTsMsg] rfl).1

/-- In every `.ok` result of `validate_file`, the success flag equals
the emptiness of the error list. -/
theorem validate_success_eq (fs : FS) (root : PathC) (now : Int) (prior : VState)
    (p : PathC) (v : VState × Bool × List String × List String)
    (h : validateFileS fs root now prior p = .ok v) : v.2.1 = v.2.2.1.isEmpty := by
  unfold validateFileS at h
  split at h
  · injection h with h; subst h; rfl
  · split at h
    · exact Except.noConfusion h
    · split at h
      · exact Except.noConfusion h
      · injection h with h; subst h; rfl

/-- Every result collected by the main loop satisfies the
success/error relationship. -/
theorem runAux_success (fs : FS) (root : PathC) (now : Int) :
    ∀ (docs : List PathC) (st : VState) (results : List (Bool × List String × List String)),
      runMainAux fs root now st docs = .ok results →
      ∀ r ∈ results, r.1 = r.2.1.isEmpty := by
  intro docs
  induction docs with
  | nil =>
    intro st results h r hr
    unfold runMainAux at h
    injection h with h
    subst h
    exact absurd hr (List.not_mem_nil r)
  | cons p rest ih =>
    intro st results h r hr
    unfold runMainAux at h
    split at h
    · exact Except.noConfusion h
    next v hv =>
      split at h
      · exact Except.noConfusion h
      next others ha =>
        injection h with h
        subst h
        rcases List.mem_cons.mp hr with he | hm
        · rw [he]
          exact validate_success_eq fs root now st p v hv
        · exact ih v.1 others ha r hm

/-- The main loop returns one result per document. -/
theorem runAux_length (fs : FS) (root : PathC) (now : Int) :
    ∀ (docs : List PathC) (st : VState) (results : List (Bool × List String × List String)),
      runMainAux fs root now st docs = .ok results → results.length = docs.length := by
  intro docs
  induction docs with
  | nil =>
    intro st results h
    unfold runMainAux at h
    injection h with h
    subst h
    rfl
  | cons p rest ih =>
    intro st results h
    unfold runMainAux at h
    split at h
    · exact Except.noConfusion h
    next v hv =>
      split at h
      · exact Except.noConfusion h
      next others ha =>
        injection h with h
        subst h
        simpa using ih v.1 others ha

/-- Claim C4.  When the run completes normally, the exit status is 0 or
1, and it is 0 exactly when every validated document's error list is
empty; warnings play no role (they do not occur in the condition), and
a missing document contributes its synthetic error. -/
theorem c4_exit_status (fs : FS) (root : PathC) (now : Int) (docs : List PathC)
    (code : Nat) (results : List (Bool × List String × List String))
    (h : runMain fs root now docs = .ok (code, results)) :
    (code = 0 ∨ code = 1) ∧
    (code = 0 ↔ ∀ r ∈ results, r.2.1 = ([] : List String)) := by
  unfold runMain at h
  split at h
  · exact Except.noConfusion h
  next res ha =>
    injection h with h
    have hc : (if res.any (fun r => !r.1) then 1 else 0) = code ∧ res = results := by
      constructor
      · exact congrArg Prod.fst h
      · exact congrArg Prod.snd h
    obtain ⟨hc, hres⟩ := hc
    subst hres
    subst hc
    have hsucc := runAux_success fs root now docs ⟨[], [], []⟩ res ha
    constructor
    · by_cases hb : res.any (fun r => !r.1)
      · rw [if_pos hb]; right; rfl
      · rw [if_neg hb]; left; rfl
    · by_cases hb : res.any (fun r => !r.1)
      · rw [if_pos hb]
        simp only [List.any_eq_true] at hb
        obtain ⟨r, hm, hrb⟩ := hb
        rw [Bool.not_eq_true'] at hrb
        constructor
        · intro h10; exact absurd h10 (by norm_num)
        · intro hall
          have h1 := hsucc r hm
          rw [hrb] at h1
          have h2 := (List.isEmpty_eq_false.mp h1.symm)
          exact absurd (hall r hm) h2
      · rw [if_neg hb]
        constructor
        · intro _ r hm
          have h1 : ¬ (!r.1) = true := by
            intro hcontra
            exact hb (List.any_eq_true.mpr ⟨r, hm, hcontra⟩)
          rw [Bool.not_eq_true, Bool.not_eq_false'] at h1
          have h2 := hsucc r hm
          rw [h1] at h2
          exact List.isEmpty_iff.mp h2.symm
        · intro _; rfl

/-- Witness for C4: the empty run exits 0. -/
theorem c4_exit_status_witness :
    ((0 : Nat) = 0 ∨ (0 : Nat) = 1) ∧
    ((0 : Nat) = 0 ↔
      ∀ r ∈ ([] : List (Bool × List String × List String)), r.2.1 = ([] : List String)) :=
  c4_exit_status ⟨[]⟩ [] 0 [] 0 [] rfl

/-- Claim C5.  A path that does not exist short-circuits
`validate_file`: the result is a failure carrying exactly one error
(naming the missing file) and no warnings, independently of any checker
(none runs: the result is fixed by `fsRead fs p = none` alone); and the
main loop still produces a result for every document in the run. -/
theorem c5_missing_file (fs : FS) (root : PathC) (now : Int) (prior : VState) (p : PathC)
    (h : fsRead fs p = none) :
    validateFileS fs root now prior p
      = .ok (⟨[missingMsg p], [], []⟩, false, [missingMsg p], []) ∧
    (∀ (docs : List PathC) (st : VState)
        (results : List (Bool × List String × List String)),
      runMainAux fs root now st docs = .ok results → results.length = docs.length) := by
  refine ⟨?_, runAux_length fs root now⟩
  unfold validateFileS
  rw [h]

/-- Witness for C5 on an empty filesystem. -/
theorem c5_missing_file_witness :
    validateFileS ⟨[]⟩ ["r"] 0 ⟨[], [], []⟩ ["r", "none.md"]
      = .ok (⟨["File does not exist: /r/none.md"], [], []⟩, false,
          ["File does not exist: /r/none.md"], []) :=
  (c5_missing_file ⟨[]⟩ ["r"] 0 ⟨[], [], []⟩ ["r", "none.md"] rfl).1

/-- `takeWhile` passes over a block whose elements all satisfy `f`. -/
theorem takeWhile_append_all (f : Char → Bool) (r : List Char) :
    ∀ l, (∀ c ∈ l, f c = true) → (l ++ r).takeWhile f = l ++ r.takeWhile f := by
  intro l
  induction l with
  | nil => intro _; simp
  | cons c cs ih =>
    intro h
    rw [List.cons_append, List.takeWhile_cons, h c (by simp), if_pos rfl,
      ih (fun x hx => h x (by simp [hx])), List.cons_append]

/-- `dropWhile` skips a block whose elements all satisfy `f`. -/
theorem dropWhile_append_all (f : Char → Bool) (r : List Char) :
    ∀ l, (∀ c ∈ l, f c = true) → (l ++ r).dropWhile f = r.dropWhile f := by
  intro l
  induction l with
  | nil => intro _; simp
  | cons c cs ih =>
    intro h
    rw [List.cons_append, List.dropWhile_cons, h c (by simp), if_pos rfl,
      ih (fun x hx => h x (by simp [hx]))]

/-- `splitLast` finds nothing in a list free of `c`. -/
theorem splitLast_none (c : Char) : ∀ l, (∀ x ∈ l, x ≠ c) → splitLast c l = none := by
  intro l
  induction l with
  | nil => intro _; rfl
  | cons x xs ih =>
    intro h
    simp only [splitLast, ih (fun y hy => h y (by simp [hy]))]
    simp [h x (by simp)]

/-- `splitLast` splits at the final occurrence of `c`. -/
theorem splitLast_append (c : Char) (r : List Char) (hr : ∀ x ∈ r, x ≠ c) :
    ∀ l, splitLast c (l ++ c :: r) = some (l, r) := by
  intro l
  induction l with
  | nil =>
    simp only [List.nil_append, splitLast, splitLast_none c r hr]
    simp
  | cons x xs ih =>
    simp only [List.cons_append, splitLast, List.append_eq, ih]

/-- The line-number pattern only matches at a backtick. -/
theorem matchRef1_off (c : Char) (cs : List Char) (h : c ≠ btChar) :
    matchRef1 (c :: cs) = none := by
  simp [matchRef1, h]

theorem matchRef1_lone : matchRef1 [btChar] = none := rfl

/-- The rooted patterns only match at a backtick. -/
theorem matchRefPre_off (pre : List Char) (c : Char) (cs : List Char) (h : c ≠ btChar) :
    matchRefPre pre (c :: cs) = none := by
  simp [matchRefPre, h]

theorem matchRefPre_lone (pre : List Char) : matchRefPre pre [btChar] = none := rfl

/-- After the opening backtick of a lone span has been handled, the
scan over the remaining backtick-free text plus the closing backtick
yields nothing. -/
theorem scanRefs_tail_nil (m : List Char → Option (String × List Char))
    (hoff : ∀ c cs, c ≠ btChar → m (c :: cs) = none)
    (hlone : m [btChar] = none) :
    ∀ (q : List Char) (fuel : Nat), (∀ x ∈ q, x ≠ btChar) →
      scanAux m fuel (q ++ [btChar]) = [] := by
  intro q
  induction q with
  | nil =>
    intro fuel _
    cases fuel with
    | zero => rfl
    | succ f =>
      simp only [List.nil_append, scanAux, hlone]
      cases f <;> rfl
  | cons x xs ih =>
    intro fuel h
    cases fuel with
    | zero => rfl
    | succ f =>
      simp only [List.cons_append, scanAux, List.append_eq,
        hoff x (xs ++ [btChar]) (h x (by simp))]
      exact ih f (fun y hy => h y (by simp [hy]))

/-- A scan over a single backtick-delimited span on which the matcher
fails finds nothing at all. -/
theorem scan_span (m : List Char → Option (String × List Char)) (p : List Char)
    (h0 : m (btChar :: (p ++ [btChar])) = none)
    (hoff : ∀ c cs, c ≠ btChar → m (c :: cs) = none)
    (hlone : m [btChar] = none)
    (hp : ∀ x ∈ p, x ≠ btChar) :
    ∀ fuel, scanAux m fuel (btChar :: (p ++ [btChar])) = [] := by
  intro fuel
  cases fuel with
  | zero => rfl
  | succ f =>
    simp only [scanAux, h0]
    exact scanRefs_tail_nil m hoff hlone p f hp

/-- The line-number pattern rejects a whole span with no colon. -/
theorem matchRef1_span_none (p : List Char) (hp : ∀ x ∈ p, notBt x = true)
    (hcol : ∀ x ∈ p, x ≠ ':') :
    matchRef1 (btChar :: (p ++ [btChar])) = none := by
  have hd : (p ++ [btChar]).dropWhile notBt = [btChar] := by
    rw [dropWhile_append_all notBt [btChar] p hp]; rfl
  have ht : (p ++ [btChar]).takeWhile notBt = p := by
    rw [takeWhile_append_all notBt [btChar] p hp]
    simp [List.takeWhile_cons, notBt]
  simp only [matchRef1, hd, ht]
  simp [p1Split, splitLast_none ':' p hcol]

/-- Value of a rooted pattern on a whole span. -/
theorem matchRefPre_span (pre p : List Char) (hp : ∀ x ∈ p, notBt x = true) :
    matchRefPre pre (btChar :: (p ++ [btChar]))
      = (if pre.isPrefixOf p then
          match splitLast '.' (p.drop pre.length) with
          | some (mid, ext) =>
            if (!mid.isEmpty) && srcExts.contains ext.asString then
              some (p.asString, ([] : List Char))
            else none
          | none => none
        else none) := by
  have hd : (p ++ [btChar]).dropWhile notBt = [btChar] := by
    rw [dropWhile_append_all notBt [btChar] p hp]; rfl
  have ht : (p ++ [btChar]).takeWhile notBt = p := by
    rw [takeWhile_append_all notBt [btChar] p hp]
    simp [List.takeWhile_cons, notBt]
  simp only [matchRefPre, hd, ht]
  simp

/-- A span `q ++ "." ++ e` whose extension `e` is not one of the four
source extensions is rejected by a rooted pattern whose 4-character
root contains no dot. -/
theorem refPre_fail (c1 c2 c3 c4 : Char) (q e : List Char)
    (h1 : c1 ≠ '.') (h2 : c2 ≠ '.') (h3 : c3 ≠ '.') (h4 : c4 ≠ '.')
    (hde : ∀ x ∈ e, x ≠ '.') (hext : srcExts.contains e.asString = false) :
    (if ([c1, c2, c3, c4] : List Char).isPrefixOf (q ++ '.' :: e) then
      match splitLast '.' ((q ++ '.' :: e).drop ([c1, c2, c3, c4] : List Char).length) with
      | some (mid, ext) =>
        if (!mid.isEmpty) && srcExts.contains ext.asString then
          some ((q ++ '.' :: e).asString, ([] : List Char))
        else none
      | none => none
    else none) = none := by
  by_cases hpre : ([c1, c2, c3, c4] : List Char).isPrefixOf (q ++ '.' :: e) = true
  · rw [if_pos hpre]
    rcases q with _ | ⟨a, _ | ⟨b, _ | ⟨c, _ | ⟨d, q2⟩⟩⟩⟩
    · simp only [List.nil_append, List.isPrefixOf, Bool.and_eq_true, beq_iff_eq] at hpre
      exact absurd hpre.1 h1
    · simp only [List.cons_append, List.nil_append, List.isPrefixOf, Bool.and_eq_true,
        beq_iff_eq] at hpre
      exact absurd hpre.2.1 h2
    · simp only [List.cons_append, List.nil_append, List.isPrefixOf, Bool.and_eq_true,
        beq_iff_eq] at hpre
      exact absurd hpre.2.2.1 h3
    · simp only [List.cons_append, List.nil_append, List.isPrefixOf, Bool.and_eq_true,
        beq_iff_eq] at hpre
      exact absurd hpre.2.2.2.1 h4
    · rw [show ((a :: b :: c :: d :: q2 : List Char) ++ '.' :: e).drop
          ([c1, c2, c3, c4] : List Char).length = q2 ++ '.' :: e from rfl,
        splitLast_append '.' e hde q2]
      simp [hext]
      intro _
      simpa using hext
  · rw [if_neg hpre]

/-- Claim C10.  An inline code span `q.e` whose extension `e` is `py`,
`sql` or `md` and which carries no colon (hence no trailing line
number) never produces a code-reference warning, for any filesystem:
the line-numbered shape demands `:digits`, and the `src/`- and
`app/`-rooted shapes recognise only `ts`, `tsx`, `js`, `jsx`.  The same
reference with a line number appended, `` `src/foo.py:10` ``, is
recognised by the line-numbered shape and is reported when absent. -/
theorem c10_code_ref_shapes (q e : List Char)
    (he : e = "py".data ∨ e = "sql".data ∨ e = "md".data)
    (hbt : ∀ x ∈ q, x ≠ btChar) (hcol : ∀ x ∈ q, x ≠ ':')
    (fs : FS) (root : PathC) :
    checkCodeFileReferences fs root ((btChar :: ((q ++ '.' :: e) ++ [btChar])).asString)
      = [] ∧
    checkCodeFileReferences ⟨[]⟩ root "`src/foo.py:10`"
      = ["Referenced file may not exist: src/foo.py"] := by
  constructor
  · have hebt : ∀ x ∈ e, x ≠ btChar := by
      rcases he with rfl | rfl | rfl <;> decide
    have hde : ∀ x ∈ e, x ≠ '.' := by
      rcases he with rfl | rfl | rfl <;> decide
    have hecol : ∀ x ∈ e, x ≠ ':' := by
      rcases he with rfl | rfl | rfl <;> decide
    have hext : srcExts.contains e.asString = false := by
      rcases he with rfl | rfl | rfl <;> decide
    have hpne : ∀ x ∈ q ++ '.' :: e, x ≠ btChar := by
      intro x hx
      rcases List.mem_append.mp hx with hq | hxe
      · exact hbt x hq
      · rcases List.mem_cons.mp hxe with rfl | hxe2
        · decide
        · exact hebt x hxe2
    have hpbt : ∀ x ∈ q ++ '.' :: e, notBt x = true := by
      intro x hx
      rw [notBt, bne_iff_ne]
      exact hpne x hx
    have hpcol : ∀ x ∈ q ++ '.' :: e, x ≠ ':' := by
      intro x hx
      rcases List.mem_append.mp hx with hq | hxe
      · exact hcol x hq
      · rcases List.mem_cons.mp hxe with rfl | hxe2
        · decide
        · exact hecol x hxe2
    have h01 : matchRef1 (btChar :: ((q ++ '.' :: e) ++ [btChar])) = none :=
      matchRef1_span_none (q ++ '.' :: e) hpbt hpcol
    have h0s : matchRefPre "src/".data (btChar :: ((q ++ '.' :: e) ++ [btChar])) = none := by
      rw [matchRefPre_span "src/".data (q ++ '.' :: e) hpbt]
      exact refPre_fail 's' 'r' 'c' '/' q e (by decide) (by decide) (by decide) (by decide)
        hde hext
    have h0a : matchRefPre "app/".data (btChar :: ((q ++ '.' :: e) ++ [btChar])) = none := by
      rw [matchRefPre_span "app/".data (q ++ '.' :: e) hpbt]
      exact refPre_fail 'a' 'p' 'p' '/' q e (by decide) (by decide) (by decide) (by decide)
        hde hext
    have hs1 : scanStr matchRef1 ((btChar :: ((q ++ '.' :: e) ++ [btChar])).asString) = [] :=
      scan_span matchRef1 (q ++ '.' :: e) h01 matchRef1_off matchRef1_lone hpne _
    have hs2 : scanStr (matchRefPre "src/".data)
        ((btChar :: ((q ++ '.' :: e) ++ [btChar])).asString) = [] :=
      scan_span (matchRefPre "src/".data) (q ++ '.' :: e) h0s
        (matchRefPre_off "src/".data) (matchRefPre_lone "src/".data) hpne _
    have hs3 : scanStr (matchRefPre "app/".data)
        ((btChar :: ((q ++ '.' :: e) ++ [btChar])).asString) = [] :=
      scan_span (matchRefPre "app/".data) (q ++ '.' :: e) h0a
        (matchRefPre_off "app/".data) (matchRefPre_lone "app/".data) hpne _
    simp only [checkCodeFileReferences, hs1, hs2, hs3, List.append_nil, List.nil_append,
      List.filterMap_nil]
  · have e1 : scanStr matchRef1 "`src/foo.py:10`" = ["src/foo.py"] := rfl
    have e2 : scanStr (matchRefPre "src/".data) "`src/foo.py:10`" = [] := rfl
    have e3 : scanStr (matchRefPre "app/".data) "`src/foo.py:10`" = [] := rfl
    have hplc : isPlaceholder (normSlash "src/foo.py") = false := rfl
    have hfe : fsExists ⟨[]⟩ (root ++ partsOfStr (normSlash "src/foo.py")) = false := rfl
    simp only [checkCodeFileReferences, e1, e2, e3, List.append_nil, List.filterMap_cons,
      List.filterMap_nil, hplc, hfe, Bool.false_eq_true, if_false]
    rfl

/-- Witness for C10 at the span `` `src/foo.py` `` on the empty
filesystem. -/
theorem c10_code_ref_shapes_witness :
    checkCodeFileReferences ⟨[]⟩ []
        ((btChar :: (("src/foo".data ++ '.' :: "py".data) ++ [btChar])).asString) = [] ∧
    checkCodeFileReferences ⟨[]⟩ [] "`src/foo.py:10`"
      = ["Referenced file may not exist: src/foo.py"] :=
  c10_code_ref_shapes "src/foo".data "py".data (Or.inl rfl) (by decide) (by decide) ⟨[]⟩ []

end ValidateDocs
